import Mathlib

/-!
Verification development for the peak-vista terrain core
(`src/rust/src/elevation_parser.rs`, `src/rust/src/mesh_generator.rs`).

Shallow embedding conventions:
* Rust `f32` arithmetic on elevations and coordinates is idealised as exact
  rational arithmetic (`ℚ`); the square roots appearing in vector
  normalisation are idealised as exact real arithmetic (`ℝ`).
* IEEE-754 NaN (arising in the source from normalising a zero-length
  vector, `0/0`) is modelled by `Option`: a `none` component stands for a
  NaN produced and propagated by the floating-point code.
* Fallible Rust functions returning `Result<T, JsValue>` become
  `Except String T`.
* The third-party `image` crate decode step is external to the repository;
  `ElevationParser.parse_png` therefore takes the already-decoded result
  (`Except String RgbImage`), and `str::parse::<f32>` is abstracted as a
  `String → Option ℚ` parameter of `ElevationParser.parse_txt`.
-/

/-- A decoded RGB image as produced by the `image` crate's `to_rgb8`:
`pixels` lists the `(R,G,B)` channel triples in row-major order (top row
first, left to right), with `pixels.length = width * height`. -/
structure RgbImage where
  width : ℕ
  height : ℕ
  pixels : List (ℕ × ℕ × ℕ)

/-- The 24-bit combined channel value `(R<<16)|(G<<8)|B` from
`ElevationParser::parse_png`. -/
def pixelCombined (p : ℕ × ℕ × ℕ) : ℕ :=
  (p.1 <<< 16) ||| (p.2.1 <<< 8) ||| p.2.2

/-- Per-pixel elevation from `ElevationParser::parse_png`: the sentinel
`8388608` maps to `0`, anything else to `combined * 0.01 - 10000`. -/
def pixelElevation (p : ℕ × ℕ × ℕ) : ℚ :=
  if pixelCombined p = 8388608 then 0
  else (pixelCombined p : ℚ) * (1 / 100) - 10000

/-- Embedding of `ElevationParser::parse_png` after the external image
decode: reject images that are not exactly 256×256, otherwise map every
pixel through the elevation formula in row-major pixel order. -/
def ElevationParser.parse_png (decoded : Except String RgbImage) :
    Except String (List ℚ) :=
  match decoded with
  | .error e => .error e
  | .ok img =>
    if img.width ≠ 256 ∨ img.height ≠ 256 then
      .error ("Invalid image size: " ++ toString img.width ++ "x" ++
        toString img.height ++ ", expected 256x256")
    else
      .ok (img.pixels.map pixelElevation)

/-- Split a character list at every occurrence of `sep` (the separator is
dropped), as `str::lines` (sep `\n`) and `str::split` (sep `,`) do. -/
def splitOnChar (sep : Char) : List Char → List (List Char)
  | [] => [[]]
  | c :: cs =>
    match splitOnChar sep cs with
    | [] => [[c]]
    | t :: ts => if c = sep then [] :: t :: ts else (c :: t) :: ts

/-- Strip leading and trailing whitespace, as `str::trim` does (this also
strips the `\r` of a CRLF line ending, as `str::lines` would). -/
def trimChars (cs : List Char) : List Char :=
  ((cs.dropWhile Char.isWhitespace).reverse.dropWhile Char.isWhitespace).reverse

/-- The trimmed comma-separated tokens of the trimmed non-blank lines of
the input, in order: this is exactly the sequence of `value_str` values
the nested line/token loops of `ElevationParser::parse_txt` iterate over
(a final empty line from a trailing newline is blank and skipped, matching
`str::lines`). -/
def txtTokens (data : String) : List String :=
  (((splitOnChar (Char.ofNat 10) data.data).map (fun l => String.mk (trimChars l))).filter
    (fun l => l != "")).flatMap
    (fun l => (splitOnChar (Char.ofNat 44) l.data).map (fun t => String.mk (trimChars t)))

/-- The token loop body of `ElevationParser::parse_txt`: the literal token
"e" pushes `0.0`; otherwise the token must parse as a float (`parseF`
abstracts `str::parse::<f32>`) or the whole parse fails naming the first
offending token. -/
def parseTokens (parseF : String → Option ℚ) : List String → Except String (List ℚ)
  | [] => .ok []
  | t :: ts =>
    if t = "e" then (parseTokens parseF ts).map (fun r => 0 :: r)
    else
      match parseF t with
      | some v => (parseTokens parseF ts).map (fun r => v :: r)
      | none => .error ("Failed to parse elevation value: " ++ t)

/-- Embedding of `ElevationParser::parse_txt`: parse every token of every
non-blank line (the nested line/token loops of the source traverse exactly
`txtTokens data`), then require exactly 65536 values. -/
def ElevationParser.parse_txt (parseF : String → Option ℚ) (data : String) :
    Except String (List ℚ) :=
  match parseTokens parseF (txtTokens data) with
  | .error e => .error e
  | .ok vals =>
    if vals.length ≠ 65536 then
      .error ("Invalid number of elevation values: " ++ toString vals.length ++
        ", expected 65536")
    else
      .ok vals

/-- LOD-to-stride table of `MeshGenerator::generate`: 0→8, 1→4, 2→2, other
values are the invalid-LOD error case. -/
def lodStep (lod_level : ℕ) : Option ℕ :=
  match lod_level with
  | 0 => some 8
  | 1 => some 4
  | 2 => some 2
  | _ => none

/-- Grid side length `(256 / step) + 1` from `MeshGenerator::generate`. -/
def gridSize (step : ℕ) : ℕ := 256 / step + 1

/-- The clamped source-field coordinate `min(coord * step, 255)` from
`MeshGenerator::generate`. -/
def sampleOf (c step : ℕ) : ℕ := min (c * step) 255

/-- One vertex position of `MeshGenerator::generate` at grid cell `(y,x)`:
`(sample_x * pixel_size - tile_size/2, elevations[sample_y*256+sample_x],
sample_y * pixel_size - tile_size/2)` with `pixel_size = tile_size/256`.
The source indexes `elevations[...]` directly; `getD` with default `0` is
justified by the in-bounds proof below. -/
def vertexTriple (elevations : List ℚ) (tile_size : ℚ) (step y x : ℕ) : ℚ × ℚ × ℚ :=
  ((sampleOf x step : ℚ) * (tile_size / 256) - tile_size / 2,
   elevations.getD (sampleOf y step * 256 + sampleOf x step) 0,
   (sampleOf y step : ℚ) * (tile_size / 256) - tile_size / 2)

/-- The flat vertex buffer of `MeshGenerator::generate`: for `y` then `x`
in `[0, grid_size)`, push the three components of the vertex. -/
def meshVertices (elevations : List ℚ) (tile_size : ℚ) (step : ℕ) : List ℚ :=
  (List.range (gridSize step)).flatMap (fun y =>
    (List.range (gridSize step)).flatMap (fun x =>
      [(vertexTriple elevations tile_size step y x).1,
       (vertexTriple elevations tile_size step y x).2.1,
       (vertexTriple elevations tile_size step y x).2.2]))

/-- The flat index buffer of `MeshGenerator::generate`: per cell `(y,x)`
the two triangles `(idx0, idx2, idx1)` and `(idx1, idx2, idx3)`. -/
def meshIndices (gs : ℕ) : List ℕ :=
  (List.range (gs - 1)).flatMap (fun y =>
    (List.range (gs - 1)).flatMap (fun x =>
      [y * gs + x, (y + 1) * gs + x, y * gs + (x + 1),
       y * gs + (x + 1), (y + 1) * gs + x, (y + 1) * gs + (x + 1)]))

/-- Consecutive index triples, mirroring the `step_by(3)` face loop of the
normal-computation pass. -/
def toFaces : List ℕ → List (ℕ × ℕ × ℕ)
  | i0 :: i1 :: i2 :: rest => (i0, i1, i2) :: toFaces rest
  | _ => []

/-- The per-cell faces of the grid: the chunked-by-three view of
`meshIndices` (proved equal to `toFaces (meshIndices gs)` below). -/
def meshFaces (gs : ℕ) : List (ℕ × ℕ × ℕ) :=
  (List.range (gs - 1)).flatMap (fun y =>
    (List.range (gs - 1)).flatMap (fun x =>
      [(y * gs + x, (y + 1) * gs + x, y * gs + (x + 1)),
       (y * gs + (x + 1), (y + 1) * gs + x, (y + 1) * gs + (x + 1))]))

/-- Read vertex `i` from the flat vertex buffer
(`vertices[i*3]`, `vertices[i*3+1]`, `vertices[i*3+2]`). -/
def getV (vs : List ℚ) (i : ℕ) : ℚ × ℚ × ℚ :=
  (vs.getD (3 * i) 0, vs.getD (3 * i + 1) 0, vs.getD (3 * i + 2) 0)

/-- Componentwise vector subtraction (glam `Vec3` subtraction). -/
def subV (a b : ℚ × ℚ × ℚ) : ℚ × ℚ × ℚ :=
  (a.1 - b.1, a.2.1 - b.2.1, a.2.2 - b.2.2)

/-- glam `Vec3::cross`. -/
def crossV (a b : ℚ × ℚ × ℚ) : ℚ × ℚ × ℚ :=
  (a.2.1 * b.2.2 - a.2.2 * b.2.1,
   a.2.2 * b.1 - a.1 * b.2.2,
   a.1 * b.2.1 - a.2.1 * b.1)

/-- The unnormalised face normal `edge1 × edge2` of a face `(i0,i1,i2)`,
with `edge1 = v1 - v0` and `edge2 = v2 - v0`. -/
def faceCross (vs : List ℚ) (f : ℕ × ℕ × ℕ) : ℚ × ℚ × ℚ :=
  crossV (subV (getV vs f.2.1) (getV vs f.1)) (subV (getV vs f.2.2) (getV vs f.1))

/-- Real 3-vector (idealisation of a glam `Vec3` of `f32`). -/
abbrev RVec3 := ℝ × ℝ × ℝ

/-- Euclidean length of a rational 3-vector, as a real. -/
noncomputable def qnorm (v : ℚ × ℚ × ℚ) : ℝ :=
  Real.sqrt ((v.1 : ℝ) ^ 2 + (v.2.1 : ℝ) ^ 2 + (v.2.2 : ℝ) ^ 2)

/-- glam `Vec3::normalize` on a rational vector: the division by a
zero length produces NaN components in the source, modelled as `none`. -/
noncomputable def normalizeQ (v : ℚ × ℚ × ℚ) : Option RVec3 :=
  if v = (0, 0, 0) then none
  else some ((v.1 : ℝ) / qnorm v, (v.2.1 : ℝ) / qnorm v, (v.2.2 : ℝ) / qnorm v)

/-- The normalised face normal pushed into the accumulators
(`edge1.cross(edge2).normalize()`). -/
noncomputable def faceNormalR (vs : List ℚ) (f : ℕ × ℕ × ℕ) : Option RVec3 :=
  normalizeQ (faceCross vs f)

/-- Accumulator addition: adding a NaN vector (or adding anything to an
already-NaN slot) leaves NaN, exactly as `+=` does on `f32` NaN. -/
def eadd : Option RVec3 → Option RVec3 → Option RVec3
  | some a, some b => some (a.1 + b.1, a.2.1 + b.2.1, a.2.2 + b.2.2)
  | _, _ => none

/-- One iteration of the face loop: add the face normal into the three
slots `idx0`, `idx1`, `idx2` of the accumulator array. -/
noncomputable def accFace (vs : List ℚ) (acc : List (Option RVec3))
    (f : ℕ × ℕ × ℕ) : List (Option RVec3) :=
  let n := faceNormalR vs f
  let a1 := acc.set f.1 (eadd (acc.getD f.1 none) n)
  let a2 := a1.set f.2.1 (eadd (a1.getD f.2.1 none) n)
  a2.set f.2.2 (eadd (a2.getD f.2.2 none) n)

/-- The accumulated (pre-normalisation) vertex normals: the source resizes
`normals` to `vertices.len()` zeros (one triple per vertex) and folds the
face loop over it. -/
noncomputable def accNormals (vs : List ℚ) (faces : List (ℕ × ℕ × ℕ)) :
    List (Option RVec3) :=
  faces.foldl (accFace vs) (List.replicate (vs.length / 3) (some ((0 : ℝ), (0 : ℝ), (0 : ℝ))))

/-- Euclidean length of a real 3-vector. -/
noncomputable def rnorm (v : RVec3) : ℝ :=
  Real.sqrt (v.1 ^ 2 + v.2.1 ^ 2 + v.2.2 ^ 2)

/-- glam `Vec3::normalize` on a real vector, `none` for the NaN result on
a zero-length input. -/
noncomputable def normalizeR (v : RVec3) : Option RVec3 :=
  if v = ((0 : ℝ), (0 : ℝ), (0 : ℝ)) then none
  else some (v.1 / rnorm v, v.2.1 / rnorm v, v.2.2 / rnorm v)

/-- The final per-vertex normalisation pass, flattened back to three
buffer components; a NaN accumulator stays NaN componentwise. -/
noncomputable def finalizeNormal (e : Option RVec3) : List (Option ℝ) :=
  match e with
  | none => [none, none, none]
  | some v =>
    match normalizeR v with
    | none => [none, none, none]
    | some w => [some w.1, some w.2.1, some w.2.2]

/-- The flat normal buffer of `MeshGenerator::generate`. -/
noncomputable def meshNormals (vs : List ℚ) (faces : List (ℕ × ℕ × ℕ)) :
    List (Option ℝ) :=
  (accNormals vs faces).flatMap finalizeNormal

/-- The `MeshData` struct: flat vertex buffer, index buffer, flat normal
buffer (a normal component is `none` when the source would hold NaN). -/
structure MeshData where
  vertices : List ℚ
  indices : List ℕ
  normals : List (Option ℝ)

/-- The successfully built mesh for a validated field and stride. -/
noncomputable def mkMeshData (elevations : List ℚ) (tile_size : ℚ) (step : ℕ) :
    MeshData :=
  { vertices := meshVertices elevations tile_size step
    indices := meshIndices (gridSize step)
    normals := meshNormals (meshVertices elevations tile_size step)
      (toFaces (meshIndices (gridSize step))) }

/-- The `MeshGenerator` struct; its only field `max_error` is never read
by `generate`. -/
structure MeshGenerator where
  max_error : ℚ

/-- `MeshGenerator::new`. -/
def MeshGenerator.new (max_error : ℚ) : MeshGenerator :=
  { max_error := max_error }

/-- Embedding of `MeshGenerator::generate`: length check, LOD/stride
resolution, then mesh construction. -/
noncomputable def MeshGenerator.generate (_g : MeshGenerator)
    (elevations : List ℚ) (tile_size : ℚ) (lod_level : ℕ) :
    Except String MeshData :=
  if elevations.length ≠ 65536 then
    .error ("Invalid elevation array length: " ++ toString elevations.length ++
      ", expected 65536")
  else
    match lodStep lod_level with
    | none => .error ("Invalid LOD level (0-2)")
    | some step => .ok (mkMeshData elevations tile_size step)

/-! ## List infrastructure -/

theorem length_flatMap_const {α β : Type} (f : α → List β) (L : ℕ)
    (hL : ∀ a, (f a).length = L) (l : List α) :
    (l.flatMap f).length = l.length * L := by
  induction l with
  | nil => simp
  | cons a t ih =>
    simp [List.flatMap_cons, List.length_append, hL, ih, Nat.succ_mul, Nat.add_comm]

theorem getD_flatMap_const {α β : Type} (f : α → List β) (L : ℕ)
    (hL : ∀ a, (f a).length = L) (d' : α) (d : β) :
    ∀ (l : List α) (i j : ℕ), i < l.length → j < L →
      (l.flatMap f).getD (i * L + j) d = (f (l.getD i d')).getD j d := by
  intro l
  induction l with
  | nil => intro i j hi _; simp at hi
  | cons a t ih =>
    intro i j hi hj
    cases i with
    | zero =>
      rw [List.flatMap_cons, Nat.zero_mul, Nat.zero_add,
        List.getD_append _ _ _ _ (by rw [hL]; exact hj)]
      rfl
    | succ i =>
      rw [List.flatMap_cons, List.getD_append_right _ _ _ _ (by rw [hL, Nat.succ_mul]; omega)]
      have : (i + 1) * L + j - (f a).length = i * L + j := by
        rw [hL, Nat.succ_mul]; omega
      rw [this]
      exact ih i j (by simpa using hi) hj

theorem getD_set_self {α : Type} (l : List α) (i : ℕ) (a d : α) (h : i < l.length) :
    (l.set i a).getD i d = a := by
  rw [List.getD_eq_getElem _ _ (by simpa using h)]
  simp [List.getElem_set, h]

theorem getD_set_ne {α : Type} (l : List α) (i j : ℕ) (a d : α) (h : i ≠ j) :
    (l.set i a).getD j d = l.getD j d := by
  rcases Nat.lt_or_ge j l.length with hj | hj
  · rw [List.getD_eq_getElem _ _ (by simpa using hj), List.getD_eq_getElem _ _ hj]
    simp [List.getElem_set, h]
  · rw [List.getD_eq_default _ _ (by simpa using hj), List.getD_eq_default _ _ hj]

theorem getD_replicate_self {α : Type} (n i : ℕ) (a : α) :
    (List.replicate n a).getD i a = a := by
  rcases Nat.lt_or_ge i n with h | h
  · rw [List.getD_eq_getElem _ _ (by simpa using h)]
    simp
  · exact List.getD_eq_default _ _ (by simpa using h)

theorem getD_replicate_of_lt {α : Type} (n i : ℕ) (a d : α) (h : i < n) :
    (List.replicate n a).getD i d = a := by
  rw [List.getD_eq_getElem _ _ (by simpa using h)]
  simp

theorem getD_range (n i : ℕ) (h : i < n) : (List.range n).getD i 0 = i := by
  rw [List.getD_eq_getElem _ _ (by simpa using h)]
  simp

/-! ## LOD table facts -/

theorem lodStep_cases (lod step : ℕ) (h : lodStep lod = some step) :
    (lod = 0 ∧ step = 8) ∨ (lod = 1 ∧ step = 4) ∨ (lod = 2 ∧ step = 2) := by
  rcases lod with _ | _ | _ | n
  · simp [lodStep] at h; omega
  · simp [lodStep] at h; omega
  · simp [lodStep] at h; omega
  · simp [lodStep] at h

theorem lodStep_isSome_iff (lod : ℕ) : (∃ s, lodStep lod = some s) ↔ lod < 3 := by
  rcases lod with _ | _ | _ | n
  · exact ⟨fun _ => by omega, fun _ => ⟨8, rfl⟩⟩
  · exact ⟨fun _ => by omega, fun _ => ⟨4, rfl⟩⟩
  · exact ⟨fun _ => by omega, fun _ => ⟨2, rfl⟩⟩
  · simp [lodStep]

theorem gridSize_of_step (lod step : ℕ) (h : lodStep lod = some step) :
    2 ≤ step ∧ (gridSize step - 1) * step = 256 ∧ 2 ≤ gridSize step := by
  rcases lodStep_cases lod step h with ⟨_, rfl⟩ | ⟨_, rfl⟩ | ⟨_, rfl⟩ <;> decide

/-! ## Vertex buffer characterisation -/

theorem meshVertices_length (elevations : List ℚ) (tile_size : ℚ) (step : ℕ) :
    (meshVertices elevations tile_size step).length = gridSize step * (gridSize step * 3) := by
  unfold meshVertices
  rw [length_flatMap_const _ (gridSize step * 3)
    (fun y => by rw [length_flatMap_const _ 3 (fun x => by simp)]; simp)]
  simp [Nat.mul_comm]

theorem meshVertices_getD (elevations : List ℚ) (tile_size : ℚ) (step y x k : ℕ)
    (hy : y < gridSize step) (hx : x < gridSize step) (hk : k < 3) :
    (meshVertices elevations tile_size step).getD (3 * (y * gridSize step + x) + k) 0 =
      [(vertexTriple elevations tile_size step y x).1,
       (vertexTriple elevations tile_size step y x).2.1,
       (vertexTriple elevations tile_size step y x).2.2].getD k 0 := by
  unfold meshVertices
  have hidx : 3 * (y * gridSize step + x) + k = y * (gridSize step * 3) + (x * 3 + k) := by ring
  rw [hidx]
  rw [getD_flatMap_const _ (gridSize step * 3)
    (fun a => by rw [length_flatMap_const _ 3 (fun x => by simp)]; simp [Nat.mul_comm]) 0 0
    _ y (x * 3 + k) (by simpa using hy) (by omega)]
  rw [getD_range _ _ hy]
  rw [getD_flatMap_const _ 3 (fun a => by simp) 0 0 _ x k (by simpa using hx) hk]
  rw [getD_range _ _ hx]

theorem getV_meshVertices (elevations : List ℚ) (tile_size : ℚ) (step y x : ℕ)
    (hy : y < gridSize step) (hx : x < gridSize step) :
    getV (meshVertices elevations tile_size step) (y * gridSize step + x) =
      vertexTriple elevations tile_size step y x := by
  unfold getV
  have h0 : 3 * (y * gridSize step + x) = 3 * (y * gridSize step + x) + 0 := by omega
  rw [h0, meshVertices_getD elevations tile_size step y x 0 hy hx (by omega),
    meshVertices_getD elevations tile_size step y x 1 hy hx (by omega),
    meshVertices_getD elevations tile_size step y x 2 hy hx (by omega)]
  rfl

/-! ## Index buffer and face list -/

theorem meshIndices_length (gs : ℕ) :
    (meshIndices gs).length = (gs - 1) * ((gs - 1) * 6) := by
  unfold meshIndices
  rw [length_flatMap_const _ ((gs - 1) * 6)
    (fun y => by rw [length_flatMap_const _ 6 (fun x => by simp)]; simp [Nat.mul_comm])]
  simp

theorem toFaces_append :
    ∀ (l₁ l₂ : List ℕ), 3 ∣ l₁.length →
      toFaces (l₁ ++ l₂) = toFaces l₁ ++ toFaces l₂
  | [], l₂, _ => rfl
  | [a], _, h => by simp at h
  | [a, b], _, h => by simp at h; omega
  | a :: b :: c :: t, l₂, h => by
    have ht : 3 ∣ t.length := by
      simp only [List.length_cons] at h
      omega
    simp only [List.cons_append, toFaces, List.cons.injEq, true_and]
    exact toFaces_append t l₂ ht

theorem toFaces_flatMap {α : Type} (l : List α) (k : α → List ℕ)
    (hk : ∀ a, 3 ∣ (k a).length) :
    toFaces (l.flatMap k) = l.flatMap (fun a => toFaces (k a)) := by
  induction l with
  | nil => rfl
  | cons a t ih =>
    rw [List.flatMap_cons, List.flatMap_cons, toFaces_append _ _ (hk a), ih]

theorem toFaces_meshIndices (gs : ℕ) : toFaces (meshIndices gs) = meshFaces gs := by
  unfold meshIndices meshFaces
  rw [toFaces_flatMap _ _ (fun y => by
    rw [length_flatMap_const _ 6 (fun x => by simp)]
    exact ⟨(List.range (gs - 1)).length * 2, by ring⟩)]
  have h : ∀ y : ℕ,
      toFaces ((List.range (gs - 1)).flatMap (fun x =>
        [y * gs + x, (y + 1) * gs + x, y * gs + (x + 1),
         y * gs + (x + 1), (y + 1) * gs + x, (y + 1) * gs + (x + 1)])) =
      (List.range (gs - 1)).flatMap (fun x =>
        [(y * gs + x, (y + 1) * gs + x, y * gs + (x + 1)),
         (y * gs + (x + 1), (y + 1) * gs + x, (y + 1) * gs + (x + 1))]) := by
    intro y
    rw [toFaces_flatMap _ _ (fun x => ⟨2, by simp⟩)]
    rfl
  simp only [h]

theorem meshFaces_mem_intro (gs y x : ℕ) (hy : y < gs - 1) (hx : x < gs - 1) :
    (y * gs + x, (y + 1) * gs + x, y * gs + (x + 1)) ∈ meshFaces gs ∧
    (y * gs + (x + 1), (y + 1) * gs + x, (y + 1) * gs + (x + 1)) ∈ meshFaces gs := by
  unfold meshFaces
  constructor <;>
    exact List.mem_flatMap.mpr ⟨y, List.mem_range.mpr hy,
      List.mem_flatMap.mpr ⟨x, List.mem_range.mpr hx, by simp⟩⟩

theorem meshFaces_mem_elim (gs : ℕ) (f : ℕ × ℕ × ℕ) (hf : f ∈ meshFaces gs) :
    ∃ y x, y < gs - 1 ∧ x < gs - 1 ∧
      (f = (y * gs + x, (y + 1) * gs + x, y * gs + (x + 1)) ∨
       f = (y * gs + (x + 1), (y + 1) * gs + x, (y + 1) * gs + (x + 1))) := by
  unfold meshFaces at hf
  rcases List.mem_flatMap.mp hf with ⟨y, hy, hf⟩
  rcases List.mem_flatMap.mp hf with ⟨x, hx, hf⟩
  refine ⟨y, x, List.mem_range.mp hy, List.mem_range.mp hx, ?_⟩
  simpa using hf

theorem meshIndices_mem_lt (gs : ℕ) (i : ℕ) (hi : i ∈ meshIndices gs) :
    i < gs * gs := by
  unfold meshIndices at hi
  rcases List.mem_flatMap.mp hi with ⟨y, hy, hi⟩
  rcases List.mem_flatMap.mp hi with ⟨x, hx, hi⟩
  rw [List.mem_range] at hy hx
  have h1 : y + 1 ≤ gs - 1 := hy
  have h2 : x + 1 ≤ gs - 1 := hx
  have hgs : 1 ≤ gs := by omega
  have hb : (y + 1) * gs + (x + 1) < gs * gs := by
    have : (y + 1) * gs ≤ (gs - 1) * gs := Nat.mul_le_mul_right gs (by omega)
    have hgg : (gs - 1) * gs + gs = gs * gs := by
      cases gs with
      | zero => rfl
      | succ n =>
        simp only [Nat.add_sub_cancel]
        ring
    omega
  have hmono : y * gs ≤ (y + 1) * gs := Nat.mul_le_mul_right gs (by omega)
  fin_cases hi <;> omega

/-- Every grid vertex index is a corner of at least one emitted face. -/
theorem vertex_covered (gs v : ℕ) (hgs : 2 ≤ gs) (hv : v < gs * gs) :
    ∃ f ∈ meshFaces gs, v = f.1 ∨ v = f.2.1 ∨ v = f.2.2 := by
  have hgs0 : 0 < gs := by omega
  set y := v / gs with hy
  set x := v % gs with hx
  have hxlt : x < gs := Nat.mod_lt _ hgs0
  have hylt : y < gs := Nat.div_lt_iff_lt_mul hgs0 |>.mpr hv
  have hv' : v = y * gs + x := by
    rw [hy, hx, Nat.mul_comm]
    exact (Nat.div_add_mod v gs).symm
  rcases Nat.lt_or_ge y (gs - 1) with hy1 | hy1 <;>
    rcases Nat.lt_or_ge x (gs - 1) with hx1 | hx1
  · exact ⟨_, (meshFaces_mem_intro gs y x hy1 hx1).1, Or.inl (by simpa using hv')⟩
  · have hxeq : x = (gs - 2) + 1 := by omega
    refine ⟨_, (meshFaces_mem_intro gs y (gs - 2) hy1 (by omega)).1,
      Or.inr (Or.inr ?_)⟩
    rw [hv', hxeq]
  · have hyeq : y = (gs - 2) + 1 := by omega
    refine ⟨_, (meshFaces_mem_intro gs (gs - 2) x (by omega) hx1).1,
      Or.inr (Or.inl ?_)⟩
    rw [hv', hyeq]
  · have hyeq : y = (gs - 2) + 1 := by omega
    have hxeq : x = (gs - 2) + 1 := by omega
    refine ⟨_, (meshFaces_mem_intro gs (gs - 2) (gs - 2) (by omega) (by omega)).2,
      Or.inr (Or.inr ?_)⟩
    rw [hv', hyeq, hxeq]

/-! ## Normal accumulation infrastructure -/

theorem eadd_none_right (a : Option RVec3) : eadd a none = none := by
  cases a <;> rfl

theorem eadd_none_left (a : Option RVec3) : eadd none a = none := by
  cases a <;> rfl

theorem accFace_length (vs : List ℚ) (acc : List (Option RVec3)) (f : ℕ × ℕ × ℕ) :
    (accFace vs acc f).length = acc.length := by
  simp [accFace]

theorem foldl_accFace_length (vs : List ℚ) (faces : List (ℕ × ℕ × ℕ)) :
    ∀ acc : List (Option RVec3), (faces.foldl (accFace vs) acc).length = acc.length := by
  induction faces with
  | nil => intro acc; rfl
  | cons f t ih =>
    intro acc
    rw [List.foldl_cons, ih, accFace_length]

theorem step_getD_ne (acc : List (Option RVec3)) (i v : ℕ) (n : Option RVec3)
    (hne : i ≠ v) :
    (acc.set i (eadd (acc.getD i none) n)).getD v none = acc.getD v none :=
  getD_set_ne acc i v _ none hne

theorem step_getD_self (acc : List (Option RVec3)) (i : ℕ) (n : Option RVec3)
    (hi : i < acc.length) :
    (acc.set i (eadd (acc.getD i none) n)).getD i none = eadd (acc.getD i none) n :=
  getD_set_self acc i _ none hi

theorem eadd_up (k : ℕ) :
    eadd (some ((0 : ℝ), (k : ℝ), 0)) (some ((0 : ℝ), 1, 0)) =
      some ((0 : ℝ), ((k + 1 : ℕ) : ℝ), 0) := by
  simp [eadd]

theorem step_up_all (acc : List (Option RVec3)) (i : ℕ)
    (hall : ∀ v < acc.length, ∃ k : ℕ, acc.getD v none = some ((0 : ℝ), (k : ℝ), 0)) :
    ∀ v < (acc.set i (eadd (acc.getD i none) (some ((0 : ℝ), 1, 0)))).length,
      ∃ k : ℕ,
        (acc.set i (eadd (acc.getD i none) (some ((0 : ℝ), 1, 0)))).getD v none =
          some ((0 : ℝ), (k : ℝ), 0) := by
  intro v hv
  rw [List.length_set] at hv
  rcases Decidable.em (i = v) with hiv | hne
  · subst hiv
    rcases hall i hv with ⟨k, hk⟩
    refine ⟨k + 1, ?_⟩
    rw [step_getD_self acc i _ hv, hk, eadd_up]
  · rw [step_getD_ne acc i v _ hne]
    exact hall v hv

theorem step_up_pos (acc : List (Option RVec3)) (i w : ℕ)
    (hw : ∃ k : ℕ, 1 ≤ k ∧ acc.getD w none = some ((0 : ℝ), (k : ℝ), 0)) :
    ∃ k : ℕ, 1 ≤ k ∧
      (acc.set i (eadd (acc.getD i none) (some ((0 : ℝ), 1, 0)))).getD w none =
        some ((0 : ℝ), (k : ℝ), 0) := by
  rcases hw with ⟨k, hk1, hk⟩
  rcases Decidable.em (i = w) with hiw | hne
  · subst hiw
    rcases Nat.lt_or_ge i acc.length with hi | hi
    · refine ⟨k + 1, by omega, ?_⟩
      rw [step_getD_self acc i _ hi, hk, eadd_up]
    · have hd : acc.getD i none = none := List.getD_eq_default _ _ hi
      rw [hd] at hk
      exact absurd hk (by simp)
  · exact ⟨k, hk1, by rw [step_getD_ne acc i w _ hne]; exact hk⟩

theorem step_up_make (acc : List (Option RVec3)) (i : ℕ) (hi : i < acc.length)
    (hall : ∀ v < acc.length, ∃ k : ℕ, acc.getD v none = some ((0 : ℝ), (k : ℝ), 0)) :
    ∃ k : ℕ, 1 ≤ k ∧
      (acc.set i (eadd (acc.getD i none) (some ((0 : ℝ), 1, 0)))).getD i none =
        some ((0 : ℝ), (k : ℝ), 0) := by
  rcases hall i hi with ⟨k, hk⟩
  refine ⟨k + 1, by omega, ?_⟩
  rw [step_getD_self acc i _ hi, hk, eadd_up]

theorem accFace_up_all (vs : List ℚ) (acc : List (Option RVec3)) (f : ℕ × ℕ × ℕ)
    (hn : faceNormalR vs f = some ((0 : ℝ), 1, 0))
    (hall : ∀ v < acc.length, ∃ k : ℕ, acc.getD v none = some ((0 : ℝ), (k : ℝ), 0)) :
    ∀ v < (accFace vs acc f).length, ∃ k : ℕ,
      (accFace vs acc f).getD v none = some ((0 : ℝ), (k : ℝ), 0) := by
  unfold accFace
  rw [hn]
  exact step_up_all _ f.2.2 (step_up_all _ f.2.1 (step_up_all acc f.1 hall))

theorem accFace_up_pos (vs : List ℚ) (acc : List (Option RVec3)) (f : ℕ × ℕ × ℕ) (w : ℕ)
    (hn : faceNormalR vs f = some ((0 : ℝ), 1, 0))
    (hw : ∃ k : ℕ, 1 ≤ k ∧ acc.getD w none = some ((0 : ℝ), (k : ℝ), 0)) :
    ∃ k : ℕ, 1 ≤ k ∧ (accFace vs acc f).getD w none = some ((0 : ℝ), (k : ℝ), 0) := by
  unfold accFace
  rw [hn]
  exact step_up_pos _ f.2.2 w (step_up_pos _ f.2.1 w (step_up_pos acc f.1 w hw))

theorem accFace_up_touch (vs : List ℚ) (acc : List (Option RVec3)) (f : ℕ × ℕ × ℕ) (w : ℕ)
    (hn : faceNormalR vs f = some ((0 : ℝ), 1, 0))
    (hwlen : w < acc.length)
    (hall : ∀ v < acc.length, ∃ k : ℕ, acc.getD v none = some ((0 : ℝ), (k : ℝ), 0))
    (htouch : w = f.1 ∨ w = f.2.1 ∨ w = f.2.2) :
    ∃ k : ℕ, 1 ≤ k ∧ (accFace vs acc f).getD w none = some ((0 : ℝ), (k : ℝ), 0) := by
  unfold accFace
  rw [hn]
  rcases htouch with h1 | h2 | h3
  · rw [h1]
    exact step_up_pos _ f.2.2 f.1 (step_up_pos _ f.2.1 f.1
      (step_up_make acc f.1 (h1 ▸ hwlen) hall))
  · rw [h2]
    refine step_up_pos _ f.2.2 f.2.1
      (step_up_make _ f.2.1 ?_ (step_up_all acc f.1 hall))
    simpa using h2 ▸ hwlen
  · rw [h3]
    refine step_up_make _ f.2.2 ?_ (step_up_all _ f.2.1 (step_up_all acc f.1 hall))
    simpa using h3 ▸ hwlen

theorem foldl_up_all (vs : List ℚ) (faces : List (ℕ × ℕ × ℕ))
    (hup : ∀ f ∈ faces, faceNormalR vs f = some ((0 : ℝ), 1, 0)) :
    ∀ acc : List (Option RVec3),
      (∀ v < acc.length, ∃ k : ℕ, acc.getD v none = some ((0 : ℝ), (k : ℝ), 0)) →
      ∀ v < (faces.foldl (accFace vs) acc).length, ∃ k : ℕ,
        (faces.foldl (accFace vs) acc).getD v none = some ((0 : ℝ), (k : ℝ), 0) := by
  induction faces with
  | nil => intro acc hall; exact hall
  | cons f t ih =>
    intro acc hall
    rw [List.foldl_cons]
    exact ih (fun g hg => hup g (List.mem_cons_of_mem f hg)) _
      (accFace_up_all vs acc f (hup f (List.mem_cons_self f t)) hall)

theorem foldl_up_pos (vs : List ℚ) (faces : List (ℕ × ℕ × ℕ)) (w : ℕ)
    (hup : ∀ f ∈ faces, faceNormalR vs f = some ((0 : ℝ), 1, 0)) :
    ∀ acc : List (Option RVec3),
      (∃ k : ℕ, 1 ≤ k ∧ acc.getD w none = some ((0 : ℝ), (k : ℝ), 0)) →
      ∃ k : ℕ, 1 ≤ k ∧
        (faces.foldl (accFace vs) acc).getD w none = some ((0 : ℝ), (k : ℝ), 0) := by
  induction faces with
  | nil => intro acc hw; exact hw
  | cons f t ih =>
    intro acc hw
    rw [List.foldl_cons]
    exact ih (fun g hg => hup g (List.mem_cons_of_mem f hg)) _
      (accFace_up_pos vs acc f w (hup f (List.mem_cons_self f t)) hw)

/-- If every face normal is the unit up vector and vertex `w` is touched by
some face, the folded accumulator at `w` is `(0, k, 0)` with `k ≥ 1`. -/
theorem foldl_up_touched (vs : List ℚ) (faces : List (ℕ × ℕ × ℕ)) (w : ℕ)
    (acc : List (Option RVec3))
    (hup : ∀ f ∈ faces, faceNormalR vs f = some ((0 : ℝ), 1, 0))
    (hall : ∀ v < acc.length, ∃ k : ℕ, acc.getD v none = some ((0 : ℝ), (k : ℝ), 0))
    (hwlen : w < acc.length)
    (htouch : ∃ f ∈ faces, w = f.1 ∨ w = f.2.1 ∨ w = f.2.2) :
    ∃ k : ℕ, 1 ≤ k ∧
      (faces.foldl (accFace vs) acc).getD w none = some ((0 : ℝ), (k : ℝ), 0) := by
  rcases htouch with ⟨f, hf, htouch⟩
  rcases List.append_of_mem hf with ⟨s, t, rfl⟩
  rw [List.foldl_append, List.foldl_cons]
  have hups : ∀ g ∈ s, faceNormalR vs g = some ((0 : ℝ), 1, 0) := by
    intro g hg; exact hup g (by simp [hg])
  have hupt : ∀ g ∈ t, faceNormalR vs g = some ((0 : ℝ), 1, 0) := by
    intro g hg; exact hup g (by simp [hg])
  have hs_all := foldl_up_all vs s hups acc hall
  have hs_len : (s.foldl (accFace vs) acc).length = acc.length :=
    foldl_accFace_length vs s acc
  refine foldl_up_pos vs t w hupt _ ?_
  exact accFace_up_touch vs _ f w (hup f (by simp)) (by omega)
    (fun v hv => hs_all v hv) htouch

theorem step_none_keep (acc : List (Option RVec3)) (i w : ℕ) (n : Option RVec3)
    (hw : acc.getD w none = none) :
    (acc.set i (eadd (acc.getD i none) n)).getD w none = none := by
  rcases Decidable.em (i = w) with hiw | hne
  · subst hiw
    rcases Nat.lt_or_ge i acc.length with hi | hi
    · rw [step_getD_self acc i _ hi, hw, eadd_none_left]
    · exact List.getD_eq_default _ _ (by simpa using hi)
  · rw [step_getD_ne acc i w _ hne]; exact hw

theorem step_none_make (acc : List (Option RVec3)) (i : ℕ)
    (hi : i < acc.length) :
    (acc.set i (eadd (acc.getD i none) none)).getD i none = none := by
  rw [step_getD_self acc i _ hi, eadd_none_right]

theorem accFace_none_keep (vs : List ℚ) (acc : List (Option RVec3))
    (f : ℕ × ℕ × ℕ) (w : ℕ) (hw : acc.getD w none = none) :
    (accFace vs acc f).getD w none = none := by
  unfold accFace
  exact step_none_keep _ f.2.2 w _ (step_none_keep _ f.2.1 w _
    (step_none_keep acc f.1 w _ hw))

theorem accFace_none_touch (vs : List ℚ) (acc : List (Option RVec3))
    (f : ℕ × ℕ × ℕ) (w : ℕ)
    (hn : faceNormalR vs f = none) (hwlen : w < acc.length)
    (htouch : w = f.1 ∨ w = f.2.1 ∨ w = f.2.2) :
    (accFace vs acc f).getD w none = none := by
  unfold accFace
  rw [hn]
  rcases htouch with h1 | h2 | h3
  · rw [h1]
    exact step_none_keep _ f.2.2 f.1 _ (step_none_keep _ f.2.1 f.1 _
      (step_none_make acc f.1 (h1 ▸ hwlen)))
  · rw [h2]
    exact step_none_keep _ f.2.2 f.2.1 _
      (step_none_make _ f.2.1 (by simpa using h2 ▸ hwlen))
  · rw [h3]
    exact step_none_make _ f.2.2 (by simpa using h3 ▸ hwlen)

theorem foldl_none_keep (vs : List ℚ) (faces : List (ℕ × ℕ × ℕ)) (w : ℕ) :
    ∀ acc : List (Option RVec3), acc.getD w none = none →
      (faces.foldl (accFace vs) acc).getD w none = none := by
  induction faces with
  | nil => intro acc hw; exact hw
  | cons f t ih =>
    intro acc hw
    rw [List.foldl_cons]
    exact ih _ (accFace_none_keep vs acc f w hw)

/-- If vertex `w` is touched by a face whose normal is NaN, the folded
accumulator at `w` is NaN. -/
theorem foldl_none_touched (vs : List ℚ) (faces : List (ℕ × ℕ × ℕ)) (w : ℕ)
    (acc : List (Option RVec3))
    (hwlen : w < acc.length)
    (htouch : ∃ f ∈ faces, faceNormalR vs f = none ∧
      (w = f.1 ∨ w = f.2.1 ∨ w = f.2.2)) :
    (faces.foldl (accFace vs) acc).getD w none = none := by
  rcases htouch with ⟨f, hf, hn, htouch⟩
  rcases List.append_of_mem hf with ⟨s, t, rfl⟩
  rw [List.foldl_append, List.foldl_cons]
  have hs_len : (s.foldl (accFace vs) acc).length = acc.length :=
    foldl_accFace_length vs s acc
  exact foldl_none_keep vs t w _
    (accFace_none_touch vs _ f w hn (by omega) htouch)

/-! ## Normalisation lemmas -/

theorem normalizeQ_up (q : ℚ) (hq : 0 < q) :
    normalizeQ (0, q, 0) = some ((0 : ℝ), 1, 0) := by
  unfold normalizeQ qnorm
  rw [if_neg (by simp [Prod.ext_iff]; exact hq.ne')]
  have hq' : (0 : ℝ) < (q : ℝ) := by exact_mod_cast hq
  have hs : Real.sqrt (((0 : ℚ) : ℝ) ^ 2 + ((q : ℚ) : ℝ) ^ 2 + ((0 : ℚ) : ℝ) ^ 2) = (q : ℝ) := by
    simp
    exact Real.sqrt_sq hq'.le
  simp only [hs]
  rw [div_self hq'.ne']
  simp

theorem normalizeR_up (r : ℝ) (hr : 0 < r) :
    normalizeR (0, r, 0) = some ((0 : ℝ), 1, 0) := by
  unfold normalizeR rnorm
  rw [if_neg (by simp [Prod.ext_iff]; exact hr.ne')]
  have hs : Real.sqrt ((0 : ℝ) ^ 2 + r ^ 2 + (0 : ℝ) ^ 2) = r := by
    simp
    exact Real.sqrt_sq hr.le
  simp only [hs]
  rw [div_self hr.ne']
  simp

theorem finalizeNormal_length (e : Option RVec3) : (finalizeNormal e).length = 3 := by
  cases e with
  | none => rfl
  | some v =>
    show (match normalizeR v with
      | none => [none, none, none]
      | some w => [some w.1, some w.2.1, some w.2.2]).length = 3
    cases normalizeR v <;> rfl

theorem finalizeNormal_none : finalizeNormal none = [none, none, none] := rfl

theorem finalizeNormal_pos (k : ℕ) (hk : 1 ≤ k) :
    finalizeNormal (some ((0 : ℝ), (k : ℝ), 0)) =
      [some (0 : ℝ), some 1, some 0] := by
  show (match normalizeR ((0 : ℝ), (k : ℝ), 0) with
    | none => [none, none, none]
    | some w => [some w.1, some w.2.1, some w.2.2]) = [some (0 : ℝ), some 1, some 0]
  rw [normalizeR_up ((k : ℕ) : ℝ) (by exact_mod_cast hk)]

theorem accNormals_length (vs : List ℚ) (faces : List (ℕ × ℕ × ℕ)) :
    (accNormals vs faces).length = vs.length / 3 := by
  unfold accNormals
  rw [foldl_accFace_length, List.length_replicate]

theorem meshNormals_length (vs : List ℚ) (faces : List (ℕ × ℕ × ℕ)) :
    (meshNormals vs faces).length = vs.length / 3 * 3 := by
  unfold meshNormals
  rw [length_flatMap_const _ 3 finalizeNormal_length, accNormals_length]

theorem meshNormals_getD (vs : List ℚ) (faces : List (ℕ × ℕ × ℕ)) (v j : ℕ)
    (hv : v < (accNormals vs faces).length) (hj : j < 3) :
    (meshNormals vs faces).getD (v * 3 + j) none =
      (finalizeNormal ((accNormals vs faces).getD v none)).getD j none := by
  unfold meshNormals
  exact getD_flatMap_const _ 3 finalizeNormal_length none none _ v j hv hj

/-! ## Sampling arithmetic -/

theorem gridSize_pos_facts (step gs : ℕ) (h2 : 2 ≤ step) (h256 : (gs - 1) * step = 256) :
    2 ≤ gs := by
  rcases Nat.lt_or_ge gs 2 with h | h
  · exfalso
    have h0 : gs - 1 = 0 ∨ gs - 1 = 1 := by omega
    rcases h0 with h0 | h0 <;> rw [h0] at h256 <;> omega
  · exact h

theorem sampleOf_mono (step gs x : ℕ) (h2 : 2 ≤ step) (h256 : (gs - 1) * step = 256)
    (hx : x < gs - 1) :
    sampleOf x step = x * step ∧ x * step < sampleOf (x + 1) step := by
  have hgs : 2 ≤ gs := gridSize_pos_facts step gs h2 h256
  have hxle : x ≤ gs - 2 := by omega
  have hA : x * step ≤ (gs - 2) * step := Nat.mul_le_mul_right step hxle
  have hB : (gs - 2) * step + step = (gs - 1) * step := by
    have : gs - 1 = (gs - 2) + 1 := by omega
    rw [this, Nat.succ_mul]
  have hsmall : x * step ≤ 254 := by omega
  constructor
  · exact Nat.min_eq_left (by omega)
  · refine Nat.lt_min.mpr ⟨?_, by omega⟩
    have : (x + 1) * step = x * step + step := by rw [Nat.succ_mul]
    omega

/-! ## Flat-field face normals -/

theorem flatField_faceNormal_up (ts : ℚ) (hts : 0 < ts) (lod step : ℕ)
    (hl : lodStep lod = some step) :
    ∀ f ∈ meshFaces (gridSize step),
      faceNormalR (meshVertices (List.replicate 65536 (0 : ℚ)) ts step) f =
        some ((0 : ℝ), 1, 0) := by
  obtain ⟨h2, h256, hgs2⟩ := gridSize_of_step lod step hl
  intro f hf
  set gs := gridSize step with hgs
  set vs := meshVertices (List.replicate 65536 (0 : ℚ)) ts step with hvs
  rcases meshFaces_mem_elim gs f hf with ⟨y, x, hy, hx, hface⟩
  have hylt : y < gs := by omega
  have hxlt : x < gs := by omega
  have hy1lt : y + 1 < gs := by omega
  have hx1lt : x + 1 < gs := by omega
  have hPdiff : ∀ t : ℕ, t < gs - 1 →
      (0 : ℚ) < ((sampleOf (t + 1) step : ℚ) - (sampleOf t step : ℚ)) * (ts / 256) := by
    intro t ht
    obtain ⟨heq, hlt⟩ := sampleOf_mono step gs t h2 h256 ht
    have : (sampleOf t step : ℚ) < (sampleOf (t + 1) step : ℚ) := by
      rw [heq]; exact_mod_cast hlt
    have hpos : (0 : ℚ) < (sampleOf (t + 1) step : ℚ) - (sampleOf t step : ℚ) := by
      linarith
    have hts' : (0 : ℚ) < ts / 256 := by positivity
    exact mul_pos hpos hts'
  have hget : ∀ y' x', y' < gs → x' < gs →
      getV vs (y' * gs + x') =
        ((sampleOf x' step : ℚ) * (ts / 256) - ts / 2, 0,
         (sampleOf y' step : ℚ) * (ts / 256) - ts / 2) := by
    intro y' x' hy' hx'
    rw [hvs, getV_meshVertices _ _ _ _ _ hy' hx']
    unfold vertexTriple
    rw [getD_replicate_self]
  rcases hface with h1 | h2f
  · have hc : faceCross vs f =
        (0, ((sampleOf (y + 1) step : ℚ) - (sampleOf y step : ℚ)) * (ts / 256) *
          (((sampleOf (x + 1) step : ℚ) - (sampleOf x step : ℚ)) * (ts / 256)), 0) := by
      rw [h1]
      unfold faceCross crossV subV
      simp only []
      rw [hget y x hylt hxlt, hget (y + 1) x hy1lt hxlt, hget y (x + 1) hylt hx1lt]
      simp only [Prod.mk.injEq]
      refine ⟨by ring, by ring, by ring⟩
    rw [faceNormalR, hc]
    exact normalizeQ_up _ (mul_pos (hPdiff y hy) (hPdiff x hx))
  · have hc : faceCross vs f =
        (0, ((sampleOf (x + 1) step : ℚ) - (sampleOf x step : ℚ)) * (ts / 256) *
          (((sampleOf (y + 1) step : ℚ) - (sampleOf y step : ℚ)) * (ts / 256)), 0) := by
      rw [h2f]
      unfold faceCross crossV subV
      simp only []
      rw [hget y (x + 1) hylt hx1lt, hget (y + 1) x hy1lt hxlt,
        hget (y + 1) (x + 1) hy1lt hx1lt]
      simp only [Prod.mk.injEq]
      refine ⟨by ring, by ring, by ring⟩
    rw [faceNormalR, hc]
    exact normalizeQ_up _ (mul_pos (hPdiff x hx) (hPdiff y hy))

theorem flatField_ts0_faceNormal_none (step : ℕ) :
    ∀ f ∈ meshFaces (gridSize step),
      faceNormalR (meshVertices (List.replicate 65536 (0 : ℚ)) 0 step) f = none := by
  intro f hf
  set gs := gridSize step with hgs
  set vs := meshVertices (List.replicate 65536 (0 : ℚ)) 0 step with hvs
  rcases meshFaces_mem_elim gs f hf with ⟨y, x, hy, hx, hface⟩
  have hgs1 : 1 ≤ gs := by
    rw [hgs]
    unfold gridSize
    exact Nat.le_add_left 1 (256 / step)
  have hget : ∀ y' x', y' < gs → x' < gs → getV vs (y' * gs + x') = (0, 0, 0) := by
    intro y' x' hy' hx'
    rw [hvs, getV_meshVertices _ _ _ _ _ hy' hx']
    unfold vertexTriple
    rw [getD_replicate_self]
    norm_num
  have hzero : faceCross vs f = (0, 0, 0) := by
    rcases hface with h1 | h2 <;> subst f <;>
      unfold faceCross crossV subV <;> simp only []
    · rw [hget y x (by omega) (by omega), hget (y + 1) x (by omega) (by omega),
        hget y (x + 1) (by omega) (by omega)]
      norm_num
    · rw [hget y (x + 1) (by omega) (by omega), hget (y + 1) x (by omega) (by omega),
        hget (y + 1) (x + 1) (by omega) (by omega)]
      norm_num
  rw [faceNormalR, hzero]
  unfold normalizeQ
  rw [if_pos rfl]

/-- On the all-zero field with positive tile size, every accumulated vertex
normal is `(0, k, 0)` with `k ≥ 1`, and the final normal buffer is the unit
up vector at every vertex. -/
theorem meshNormals_flat (ts : ℚ) (lod step : ℕ) (hts : 0 < ts)
    (hl : lodStep lod = some step) :
    meshNormals (meshVertices (List.replicate 65536 (0 : ℚ)) ts step)
        (toFaces (meshIndices (gridSize step))) =
      (List.replicate (gridSize step * gridSize step)
        [some (0 : ℝ), some 1, some 0]).flatten := by
  obtain ⟨h2, h256, hgs2⟩ := gridSize_of_step lod step hl
  set gs := gridSize step with hgs
  set vs := meshVertices (List.replicate 65536 (0 : ℚ)) ts step with hvs
  have hlen_vs : vs.length = gs * (gs * 3) := meshVertices_length _ _ _
  have hnv : vs.length / 3 = gs * gs := by
    rw [hlen_vs]
    have h3 : gs * (gs * 3) = gs * gs * 3 := by ring
    rw [h3, Nat.mul_div_cancel _ (by omega)]
  have hfaces : toFaces (meshIndices gs) = meshFaces gs := toFaces_meshIndices gs
  have hup : ∀ f ∈ meshFaces gs, faceNormalR vs f = some ((0 : ℝ), 1, 0) :=
    flatField_faceNormal_up ts hts lod step hl
  have hacclen : (accNormals vs (meshFaces gs)).length = gs * gs := by
    rw [accNormals_length, hnv]
  have hpos : ∀ v < gs * gs, ∃ k : ℕ, 1 ≤ k ∧
      (accNormals vs (meshFaces gs)).getD v none = some ((0 : ℝ), (k : ℝ), 0) := by
    intro v hv
    unfold accNormals
    refine foldl_up_touched vs (meshFaces gs) v _ hup ?_ ?_ ?_
    · intro w hw
      refine ⟨0, ?_⟩
      rw [getD_replicate_of_lt _ _ _ _ (by simpa using hw)]
      norm_num
    · rw [List.length_replicate, hnv]
      exact hv
    · exact vertex_covered gs v hgs2 hv
  have hmap : (accNormals vs (meshFaces gs)).map finalizeNormal =
      List.replicate (gs * gs) [some (0 : ℝ), some 1, some 0] := by
    rw [List.eq_replicate_iff]
    refine ⟨by rw [List.length_map, hacclen], ?_⟩
    intro b hb
    rcases List.mem_map.mp hb with ⟨a, ha, rfl⟩
    rcases List.mem_iff_getElem.mp ha with ⟨i, hilt, hia⟩
    have hgd : (accNormals vs (meshFaces gs)).getD i none = a := by
      rw [List.getD_eq_getElem _ _ hilt, hia]
    rcases hpos i (by omega) with ⟨k, hk1, hk⟩
    rw [hgd] at hk
    rw [hk]
    exact finalizeNormal_pos k hk1
  unfold meshNormals
  rw [hfaces, List.flatMap_def, hmap]

/-! ## Text parsing lemmas -/

theorem exceptMap_ok {ε α β : Type} (f : α → β) (x : α) :
    Except.map f (.ok x : Except ε α) = .ok (f x) := rfl

theorem exceptMap_error {ε α β : Type} (f : α → β) (e : ε) :
    Except.map f (.error e : Except ε α) = .error e := rfl

theorem parseTokens_error (parseF : String → Option ℚ) :
    ∀ (toks : List String) (t : String),
      toks.find? (fun s => !(s == "e") && (parseF s).isNone) = some t →
      parseTokens parseF toks = .error ("Failed to parse elevation value: " ++ t) := by
  intro toks
  induction toks with
  | nil => intro t ht; simp at ht
  | cons a ts ih =>
    intro t ht
    by_cases hpa : (!(a == "e") && (parseF a).isNone) = true
    · rw [List.find?_cons_of_pos (p := fun s => !(s == "e") && (parseF s).isNone) ts hpa] at ht
      injection ht with ht
      subst ht
      have hae : ¬(a = "e") := by
        intro h
        rw [h] at hpa
        simp at hpa
      have hnone : parseF a = none := by
        rcases Bool.and_eq_true_iff.mp hpa with ⟨_, h2⟩
        exact Option.isNone_iff_eq_none.mp h2
      unfold parseTokens
      rw [if_neg hae, hnone]
    · rw [List.find?_cons_of_neg (p := fun s => !(s == "e") && (parseF s).isNone) ts hpa] at ht
      have hrec := ih t ht
      unfold parseTokens
      by_cases hae : a = "e"
      · rw [if_pos hae, hrec, exceptMap_error]
      · have hsome : ∃ v, parseF a = some v := by
          rcases h : parseF a with _ | v
          · exfalso
            apply hpa
            simp only [Bool.and_eq_true, Bool.not_eq_true']
            exact ⟨by simpa using hae, by simp [h]⟩
          · exact ⟨v, rfl⟩
        rcases hsome with ⟨v, hv⟩
        rw [if_neg hae]
        simp only [hv]
        rw [hrec, exceptMap_error]

theorem parseTokens_ok (parseF : String → Option ℚ) :
    ∀ toks : List String,
      toks.find? (fun s => !(s == "e") && (parseF s).isNone) = none →
      parseTokens parseF toks =
        .ok (toks.map (fun s => if s = "e" then 0 else (parseF s).getD 0)) := by
  intro toks
  induction toks with
  | nil => intro _; rfl
  | cons a ts ih =>
    intro ht
    rw [List.find?_eq_none] at ht
    have hrec := ih (List.find?_eq_none.mpr (fun x hx => ht x (List.mem_cons_of_mem a hx)))
    have hpa := ht a (List.mem_cons_self a ts)
    unfold parseTokens
    by_cases hae : a = "e"
    · rw [if_pos hae, hrec, exceptMap_ok]
      simp [hae]
    · have hsome : ∃ v, parseF a = some v := by
        rcases h : parseF a with _ | v
        · exfalso
          apply hpa
          simp only [Bool.and_eq_true, Bool.not_eq_true']
          exact ⟨by simpa using hae, by simp [h]⟩
        · exact ⟨v, rfl⟩
      rcases hsome with ⟨v, hv⟩
      rw [if_neg hae]
      simp only [hv]
      rw [hrec, exceptMap_ok]
      simp [hae, hv]

theorem mkMeshData_vertices (elevations : List ℚ) (tile_size : ℚ) (step : ℕ) :
    (mkMeshData elevations tile_size step).vertices =
      meshVertices elevations tile_size step := rfl

theorem mkMeshData_indices (elevations : List ℚ) (tile_size : ℚ) (step : ℕ) :
    (mkMeshData elevations tile_size step).indices = meshIndices (gridSize step) := rfl

theorem mkMeshData_normals (elevations : List ℚ) (tile_size : ℚ) (step : ℕ) :
    (mkMeshData elevations tile_size step).normals =
      meshNormals (meshVertices elevations tile_size step)
        (toFaces (meshIndices (gridSize step))) := rfl

/-- Successful-path equation for `MeshGenerator.generate`. -/
theorem generate_ok (g : MeshGenerator) (elevations : List ℚ) (tile_size : ℚ)
    (lod step : ℕ) (hlen : elevations.length = 65536)
    (hl : lodStep lod = some step) :
    g.generate elevations tile_size lod = .ok (mkMeshData elevations tile_size step) := by
  unfold MeshGenerator.generate
  rw [if_neg (by rw [hlen]; exact fun h => h rfl), hl]

theorem replicate_length_65536 : (List.replicate 65536 (0 : ℚ)).length = 65536 :=
  List.length_replicate 65536 0

/-! ## Claim theorems -/

/-- C1: for every input that decodes to an RGB image of exactly 256×256
pixels, `ElevationParser::parse_png` returns `Ok` with exactly 65536
values in row-major pixel order, where a pixel with channels `(R,G,B)` and
`combined = (R<<16)|(G<<8)|B` yields `0.0` if `combined = 8388608` and
`combined * 0.01 - 10000.0` otherwise. -/
theorem c1_parse_png_spec (img : RgbImage)
    (hw : img.width = 256) (hh : img.height = 256)
    (hpix : img.pixels.length = img.width * img.height) :
    ElevationParser.parse_png (.ok img) = .ok (img.pixels.map pixelElevation) ∧
    (img.pixels.map pixelElevation).length = 65536 ∧
    ∀ i < 65536, ∀ R G B : ℕ, img.pixels.getD i (0, 0, 0) = (R, G, B) →
      (img.pixels.map pixelElevation).getD i 0 =
        (if (R <<< 16) ||| (G <<< 8) ||| B = 8388608 then (0 : ℚ)
         else (((R <<< 16) ||| (G <<< 8) ||| B : ℕ) : ℚ) * (1 / 100) - 10000) := by
  have hlen : img.pixels.length = 65536 := by
    rw [hpix, hw, hh]
  refine ⟨?_, ?_, ?_⟩
  · simp only [ElevationParser.parse_png]
    rw [if_neg (by rw [hw, hh]; simp)]
  · rw [List.length_map, hlen]
  · intro i hi R G B hRGB
    have hi' : i < (img.pixels.map pixelElevation).length := by
      rw [List.length_map, hlen]; exact hi
    have hip : i < img.pixels.length := by rw [hlen]; exact hi
    rw [List.getD_eq_getElem _ _ hi', List.getElem_map]
    rw [List.getD_eq_getElem _ _ hip] at hRGB
    rw [hRGB]
    rfl

theorem c1_parse_png_spec_witness :
    ElevationParser.parse_png
        (.ok ⟨256, 256, List.replicate 65536 ((0 : ℕ), (0 : ℕ), (0 : ℕ))⟩) =
      .ok ((List.replicate 65536 ((0 : ℕ), (0 : ℕ), (0 : ℕ))).map pixelElevation) :=
  (c1_parse_png_spec ⟨256, 256, List.replicate 65536 ((0 : ℕ), (0 : ℕ), (0 : ℕ))⟩
    rfl rfl (by norm_num)).1

/-- C2 (refuted): with tile_size = 256 and LOD 0 (stride 8), the clamped
far-edge sample is pixel 255, so the last grid column sits at planar
x = 127 — not at the far tile boundary +tile_size/2 = 128 — while the
first column of an adjacent mesh translated by tile_size sits exactly at
128: the boundary vertex positions do not coincide and a one-pixel gap
remains between tiles. -/
theorem c2_far_edge_gap :
    (getV (meshVertices (List.replicate 65536 (0 : ℚ)) 256 8) 32).1 = 127 ∧
    (getV (meshVertices (List.replicate 65536 (0 : ℚ)) 256 8) 0).1 + 256 = 128 ∧
    (127 : ℚ) ≠ 256 / 2 := by
  have hgs : gridSize 8 = 33 := by norm_num [gridSize]
  have h32 : 32 = 0 * gridSize 8 + 32 := by omega
  have h0 : 0 = 0 * gridSize 8 + 0 := by omega
  refine ⟨?_, ?_, by norm_num⟩
  · rw [h32, getV_meshVertices _ _ _ _ _ (by omega) (by omega)]
    norm_num [vertexTriple, sampleOf]
  · rw [h0, getV_meshVertices _ _ _ _ _ (by omega) (by omega)]
    norm_num [vertexTriple, sampleOf]

/-- C3: for a length-65536 field and a valid LOD with stride `step`, the
vertex at grid position `(y,x)` has world position
`(min(x*step,255) * (tile_size/256) - tile_size/2,
  field[min(y*step,255)*256 + min(x*step,255)],
  min(y*step,255) * (tile_size/256) - tile_size/2)`,
and the field index accessed is always below 65536 (no out-of-bounds
read). -/
theorem c3_vertex_positions (g : MeshGenerator) (elevations : List ℚ)
    (tile_size : ℚ) (lod step y x : ℕ)
    (hlen : elevations.length = 65536)
    (hl : lodStep lod = some step)
    (hy : y < gridSize step) (hx : x < gridSize step) :
    g.generate elevations tile_size lod = .ok (mkMeshData elevations tile_size step) ∧
    getV (mkMeshData elevations tile_size step).vertices (y * gridSize step + x) =
      ((min (x * step) 255 : ℕ) * (tile_size / 256) - tile_size / 2,
       elevations.getD (min (y * step) 255 * 256 + min (x * step) 255) 0,
       ((min (y * step) 255 : ℕ) : ℚ) * (tile_size / 256) - tile_size / 2) ∧
    min (y * step) 255 * 256 + min (x * step) 255 < 65536 := by
  refine ⟨generate_ok g elevations tile_size lod step hlen hl, ?_, ?_⟩
  · show getV (meshVertices elevations tile_size step) _ = _
    rw [getV_meshVertices _ _ _ _ _ hy hx]
    rfl
  · have h1 : min (y * step) 255 ≤ 255 := Nat.min_le_right _ _
    have h2 : min (x * step) 255 ≤ 255 := Nat.min_le_right _ _
    have h3 : min (y * step) 255 * 256 ≤ 255 * 256 := Nat.mul_le_mul_right _ h1
    omega

theorem c3_vertex_positions_witness :
    (MeshGenerator.new 0).generate (List.replicate 65536 (0 : ℚ)) 1 0 =
      .ok (mkMeshData (List.replicate 65536 (0 : ℚ)) 1 8) :=
  (c3_vertex_positions (MeshGenerator.new 0) (List.replicate 65536 (0 : ℚ)) 1 0 8 0 0
    (by norm_num) rfl (by norm_num [gridSize]) (by norm_num [gridSize])).1

/-- C4: on the all-zero elevation field, for any tile_size > 0 and any
valid LOD, every per-vertex normal of the generated mesh is exactly
(0, 1, 0): the (idx0, idx2, idx1) / (idx1, idx2, idx3) winding gives
counter-clockwise triangles seen from above, every face normal is +Y, and
so is every accumulated-then-normalised vertex normal. -/
theorem c4_flat_field_normals_up (g : MeshGenerator) (ts : ℚ) (lod step : ℕ)
    (hts : 0 < ts) (hl : lodStep lod = some step) :
    g.generate (List.replicate 65536 (0 : ℚ)) ts lod =
      .ok (mkMeshData (List.replicate 65536 (0 : ℚ)) ts step) ∧
    (mkMeshData (List.replicate 65536 (0 : ℚ)) ts step).normals =
      (List.replicate (gridSize step * gridSize step)
        [some (0 : ℝ), some 1, some 0]).flatten := by
  constructor
  · exact generate_ok g _ ts lod step replicate_length_65536 hl
  · show meshNormals _ _ = _
    exact meshNormals_flat ts lod step hts hl

theorem c4_flat_field_normals_up_witness :
    (MeshGenerator.new 0).generate (List.replicate 65536 (0 : ℚ)) 1 0 =
      .ok (mkMeshData (List.replicate 65536 (0 : ℚ)) 1 8) ∧
    (mkMeshData (List.replicate 65536 (0 : ℚ)) 1 8).normals =
      (List.replicate (gridSize 8 * gridSize 8)
        [some (0 : ℝ), some 1, some 0]).flatten :=
  c4_flat_field_normals_up (MeshGenerator.new 0) 1 0 8 (by norm_num) rfl

/-- C5 (refuted): generate accepts tile_size = 0 (with a length-65536
field and LOD 0), every face cross product is then the zero vector, its
normalisation divides by zero, and the resulting NaN (modelled `none`)
propagates into the returned normal buffer — no fallback direction is
substituted, so the output normals are not finite numbers. -/
theorem c5_zero_length_normal_nan :
    (MeshGenerator.new 0).generate (List.replicate 65536 (0 : ℚ)) 0 0 =
      .ok (mkMeshData (List.replicate 65536 (0 : ℚ)) 0 8) ∧
    (mkMeshData (List.replicate 65536 (0 : ℚ)) 0 8).normals.getD 0 none = none := by
  constructor
  · exact generate_ok _ _ 0 0 8 replicate_length_65536 rfl
  · rw [mkMeshData_normals]
    set vs := meshVertices (List.replicate 65536 (0 : ℚ)) 0 8 with hvs
    have hlen3 : vs.length / 3 = gridSize 8 * gridSize 8 := by
      rw [hvs, meshVertices_length]
      norm_num [gridSize]
    have hacc : (accNormals vs (toFaces (meshIndices (gridSize 8)))).getD 0 none = none := by
      rw [toFaces_meshIndices]
      unfold accNormals
      have hmem := (meshFaces_mem_intro (gridSize 8) 0 0
        (by norm_num [gridSize]) (by norm_num [gridSize])).1
      refine foldl_none_touched vs (meshFaces (gridSize 8)) 0 _ ?_ ?_
      · rw [List.length_replicate, hlen3]
        norm_num [gridSize]
      · refine ⟨(0 * gridSize 8 + 0, (0 + 1) * gridSize 8 + 0, 0 * gridSize 8 + (0 + 1)),
          hmem, flatField_ts0_faceNormal_none 8 _ hmem, ?_⟩
        left
        omega
    have hv0 : 0 < (accNormals vs (toFaces (meshIndices (gridSize 8)))).length := by
      rw [accNormals_length, hlen3]
      norm_num [gridSize]
    have hidx : (0 : ℕ) = 0 * 3 + 0 := rfl
    rw [hidx, meshNormals_getD vs _ 0 0 hv0 (by omega), hacc]
    rfl

/-- C6: for every length-65536 field and every tile_size, the mesh sizes
are determined by the LOD stride: grid_size = 256/stride + 1, flat vertex
buffer of 3*grid_size^2 floats, 6*(grid_size-1)^2 indices; numerically
33/1089/3267/2048/6144 for Far, 65/4225/24576 for Mid, 129/16641/98304
for Near. -/
theorem c6_lod_mesh_counts (g : MeshGenerator) (elevations : List ℚ)
    (tile_size : ℚ) (lod step : ℕ)
    (hlen : elevations.length = 65536) (hl : lodStep lod = some step) :
    g.generate elevations tile_size lod = .ok (mkMeshData elevations tile_size step) ∧
    gridSize step = 256 / step + 1 ∧
    (mkMeshData elevations tile_size step).vertices.length =
      3 * (gridSize step * gridSize step) ∧
    (mkMeshData elevations tile_size step).indices.length =
      6 * ((gridSize step - 1) * (gridSize step - 1)) ∧
    (lod = 0 → gridSize step = 33 ∧
      (mkMeshData elevations tile_size step).vertices.length = 3267 ∧
      (mkMeshData elevations tile_size step).vertices.length / 3 = 1089 ∧
      (mkMeshData elevations tile_size step).indices.length = 6144 ∧
      (mkMeshData elevations tile_size step).indices.length / 3 = 2048) ∧
    (lod = 1 → gridSize step = 65 ∧
      (mkMeshData elevations tile_size step).vertices.length / 3 = 4225 ∧
      (mkMeshData elevations tile_size step).indices.length = 24576) ∧
    (lod = 2 → gridSize step = 129 ∧
      (mkMeshData elevations tile_size step).vertices.length / 3 = 16641 ∧
      (mkMeshData elevations tile_size step).indices.length = 98304) := by
  have hv : (mkMeshData elevations tile_size step).vertices.length =
      3 * (gridSize step * gridSize step) := by
    rw [mkMeshData_vertices, meshVertices_length]
    ring
  have hi : (mkMeshData elevations tile_size step).indices.length =
      6 * ((gridSize step - 1) * (gridSize step - 1)) := by
    rw [mkMeshData_indices, meshIndices_length]
    ring
  refine ⟨generate_ok g elevations tile_size lod step hlen hl, rfl, hv, hi, ?_, ?_, ?_⟩
  · intro h0
    subst h0
    have hstep : step = 8 := by
      rcases lodStep_cases 0 step hl with ⟨_, h⟩ | ⟨h, _⟩ | ⟨h, _⟩ <;> omega
    subst hstep
    refine ⟨by norm_num [gridSize], ?_, ?_, ?_, ?_⟩
    · rw [hv]; norm_num [gridSize]
    · rw [hv]; norm_num [gridSize]
    · rw [hi]; norm_num [gridSize]
    · rw [hi]; norm_num [gridSize]
  · intro h1
    subst h1
    have hstep : step = 4 := by
      rcases lodStep_cases 1 step hl with ⟨h, _⟩ | ⟨_, h⟩ | ⟨h, _⟩ <;> omega
    subst hstep
    refine ⟨by norm_num [gridSize], ?_, ?_⟩
    · rw [hv]; norm_num [gridSize]
    · rw [hi]; norm_num [gridSize]
  · intro h2
    subst h2
    have hstep : step = 2 := by
      rcases lodStep_cases 2 step hl with ⟨h, _⟩ | ⟨h, _⟩ | ⟨_, h⟩ <;> omega
    subst hstep
    refine ⟨by norm_num [gridSize], ?_, ?_⟩
    · rw [hv]; norm_num [gridSize]
    · rw [hi]; norm_num [gridSize]

theorem c6_lod_mesh_counts_witness :
    (MeshGenerator.new 0).generate (List.replicate 65536 (0 : ℚ)) 1 0 =
      .ok (mkMeshData (List.replicate 65536 (0 : ℚ)) 1 8) ∧
    gridSize 8 = 33 ∧
    (mkMeshData (List.replicate 65536 (0 : ℚ)) 1 8).vertices.length = 3267 ∧
    (mkMeshData (List.replicate 65536 (0 : ℚ)) 1 8).indices.length = 6144 := by
  have h := c6_lod_mesh_counts (MeshGenerator.new 0) (List.replicate 65536 (0 : ℚ))
    1 0 8 replicate_length_65536 rfl
  rcases h with ⟨hgen, _, _, _, hfar, _, _⟩
  rcases hfar rfl with ⟨hgs, hvl, _, hil, _⟩
  exact ⟨hgen, hgs, hvl, hil⟩

theorem badTok_false_iff (parseF : String → Option ℚ) (t : String) :
    ((!(t == "e") && (parseF t).isNone) = false) ↔ (t = "e" ∨ (parseF t).isSome) := by
  rcases h : parseF t with _ | v <;> by_cases he : t = "e" <;> simp [he, h]

/-- C7: `ElevationParser::parse_txt` succeeds iff every trimmed token of
every non-blank line is "e" or parses as a float and the total token count
is exactly 65536; otherwise it fails naming the first offending token, or
with a count-mismatch error. Only the flattened token sequence matters:
the 256-lines-of-256-tokens shape is not itself enforced. -/
theorem c7_parse_txt_spec (parseF : String → Option ℚ) (data : String) :
    ((∃ vals, ElevationParser.parse_txt parseF data = .ok vals) ↔
      ((∀ t ∈ txtTokens data, t = "e" ∨ (parseF t).isSome) ∧
        (txtTokens data).length = 65536)) ∧
    (∀ t, (txtTokens data).find? (fun s => !(s == "e") && (parseF s).isNone) = some t →
      ElevationParser.parse_txt parseF data =
        .error ("Failed to parse elevation value: " ++ t)) ∧
    ((txtTokens data).find? (fun s => !(s == "e") && (parseF s).isNone) = none →
      (txtTokens data).length ≠ 65536 →
      ElevationParser.parse_txt parseF data =
        .error ("Invalid number of elevation values: " ++
          toString (txtTokens data).length ++ ", expected 65536")) ∧
    ((txtTokens data).find? (fun s => !(s == "e") && (parseF s).isNone) = none →
      (txtTokens data).length = 65536 →
      ElevationParser.parse_txt parseF data =
        .ok ((txtTokens data).map (fun s => if s = "e" then 0 else (parseF s).getD 0))) ∧
    (∀ data2, txtTokens data2 = txtTokens data →
      ElevationParser.parse_txt parseF data2 = ElevationParser.parse_txt parseF data) := by
  have herr : ∀ t, (txtTokens data).find? (fun s => !(s == "e") && (parseF s).isNone) = some t →
      ElevationParser.parse_txt parseF data =
        .error ("Failed to parse elevation value: " ++ t) := by
    intro t ht
    unfold ElevationParser.parse_txt
    rw [parseTokens_error parseF _ t ht]
  have hcount : (txtTokens data).find? (fun s => !(s == "e") && (parseF s).isNone) = none →
      (txtTokens data).length ≠ 65536 →
      ElevationParser.parse_txt parseF data =
        .error ("Invalid number of elevation values: " ++
          toString (txtTokens data).length ++ ", expected 65536") := by
    intro hnone hne
    unfold ElevationParser.parse_txt
    rw [parseTokens_ok parseF _ hnone]
    simp only [List.length_map]
    rw [if_pos hne]
  have hok : (txtTokens data).find? (fun s => !(s == "e") && (parseF s).isNone) = none →
      (txtTokens data).length = 65536 →
      ElevationParser.parse_txt parseF data =
        .ok ((txtTokens data).map (fun s => if s = "e" then 0 else (parseF s).getD 0)) := by
    intro hnone heq
    unfold ElevationParser.parse_txt
    rw [parseTokens_ok parseF _ hnone]
    simp only [List.length_map]
    rw [if_neg (by rw [heq]; exact fun h => h rfl)]
  refine ⟨⟨?_, ?_⟩, herr, hcount, hok, ?_⟩
  · rintro ⟨vals, hvals⟩
    rcases hfind : (txtTokens data).find?
        (fun s => !(s == "e") && (parseF s).isNone) with _ | t
    · constructor
      · intro t ht
        have := List.find?_eq_none.mp hfind t ht
        exact (badTok_false_iff parseF t).mp (by
          rcases hb : (!(t == "e") && (parseF t).isNone) with _ | _
          · rfl
          · exact absurd hb this)
      · by_contra hne
        rw [hcount hfind hne] at hvals
        exact absurd hvals (by simp)
    · rw [herr t hfind] at hvals
      exact absurd hvals (by simp)
  · rintro ⟨hall, hlen⟩
    have hfind : (txtTokens data).find?
        (fun s => !(s == "e") && (parseF s).isNone) = none := by
      rw [List.find?_eq_none]
      intro t ht hb
      have := (badTok_false_iff parseF t).mpr (hall t ht)
      rw [hb] at this
      exact absurd this (by simp)
    exact ⟨_, hok hfind hlen⟩
  · intro data2 htoks
    unfold ElevationParser.parse_txt
    rw [htoks]

theorem c7_parse_txt_spec_witness :
    ElevationParser.parse_txt (fun _ => none) "x" =
      .error ("Failed to parse elevation value: " ++ "x") :=
  (c7_parse_txt_spec (fun _ => none) "x").2.1 "x" (by decide)

theorem lodStep_none_of_ge (lod : ℕ) (h : 3 ≤ lod) : lodStep lod = none := by
  rcases lod with _ | _ | _ | n
  · omega
  · omega
  · omega
  · rfl

/-- C8: `MeshGenerator::generate` succeeds iff the field length is 65536
and the LOD level is in 0..2; a wrong length yields the length error
(checked first), a valid length with LOD ≥ 3 yields the LOD error; errors
carry no mesh. -/
theorem c8_generate_error_conditions (g : MeshGenerator) (elevations : List ℚ)
    (tile_size : ℚ) (lod_level : ℕ) :
    ((∃ m, g.generate elevations tile_size lod_level = .ok m) ↔
      (elevations.length = 65536 ∧ lod_level < 3)) ∧
    (elevations.length ≠ 65536 →
      g.generate elevations tile_size lod_level =
        .error ("Invalid elevation array length: " ++ toString elevations.length ++
          ", expected 65536")) ∧
    (elevations.length = 65536 → 3 ≤ lod_level →
      g.generate elevations tile_size lod_level =
        .error ("Invalid LOD level (0-2)")) := by
  have herr1 : elevations.length ≠ 65536 →
      g.generate elevations tile_size lod_level =
        .error ("Invalid elevation array length: " ++ toString elevations.length ++
          ", expected 65536") := by
    intro hne
    unfold MeshGenerator.generate
    rw [if_pos hne]
  have herr2 : elevations.length = 65536 → 3 ≤ lod_level →
      g.generate elevations tile_size lod_level =
        .error ("Invalid LOD level (0-2)") := by
    intro hlen hge
    unfold MeshGenerator.generate
    rw [if_neg (by rw [hlen]; exact fun h => h rfl), lodStep_none_of_ge lod_level hge]
  refine ⟨⟨?_, ?_⟩, herr1, herr2⟩
  · rintro ⟨m, hm⟩
    by_cases hlen : elevations.length = 65536
    · refine ⟨hlen, ?_⟩
      by_contra hge
      rw [herr2 hlen (by omega)] at hm
      exact absurd hm (by simp)
    · rw [herr1 hlen] at hm
      exact absurd hm (by simp)
  · rintro ⟨hlen, hlod⟩
    rcases (lodStep_isSome_iff lod_level).mpr hlod with ⟨s, hs⟩
    exact ⟨_, generate_ok g elevations tile_size lod_level s hlen hs⟩

theorem c8_generate_error_conditions_witness :
    (MeshGenerator.new 0).generate [] 0 0 =
      .error ("Invalid elevation array length: " ++
        toString (List.length ([] : List ℚ)) ++ ", expected 65536") :=
  (c8_generate_error_conditions (MeshGenerator.new 0) [] 0 0).2.1 (by norm_num)

/-- C9: every successfully generated mesh satisfies the structural
invariants: the index count is a multiple of 3, every index addresses a
valid vertex (index < vertices.len()/3), and the normal buffer has exactly
as many components as the vertex buffer. -/
theorem c9_mesh_invariants (g : MeshGenerator) (elevations : List ℚ)
    (tile_size : ℚ) (lod step : ℕ)
    (hlen : elevations.length = 65536) (hl : lodStep lod = some step) :
    g.generate elevations tile_size lod = .ok (mkMeshData elevations tile_size step) ∧
    (mkMeshData elevations tile_size step).indices.length % 3 = 0 ∧
    (∀ i ∈ (mkMeshData elevations tile_size step).indices,
      i < (mkMeshData elevations tile_size step).vertices.length / 3) ∧
    (mkMeshData elevations tile_size step).normals.length =
      (mkMeshData elevations tile_size step).vertices.length := by
  have hvlen : (mkMeshData elevations tile_size step).vertices.length =
      gridSize step * gridSize step * 3 := by
    rw [mkMeshData_vertices, meshVertices_length]
    ring
  refine ⟨generate_ok g elevations tile_size lod step hlen hl, ?_, ?_, ?_⟩
  · rw [mkMeshData_indices, meshIndices_length]
    have h6 : (gridSize step - 1) * ((gridSize step - 1) * 6) =
        3 * ((gridSize step - 1) * ((gridSize step - 1) * 2)) := by ring
    rw [h6, Nat.mul_mod_right]
  · intro i hi
    rw [mkMeshData_indices] at hi
    rw [hvlen, Nat.mul_div_cancel _ (by omega)]
    exact meshIndices_mem_lt (gridSize step) i hi
  · rw [mkMeshData_normals, meshNormals_length, hvlen, meshVertices_length]
    have h3 : gridSize step * (gridSize step * 3) = gridSize step * gridSize step * 3 := by
      ring
    rw [h3, Nat.mul_div_cancel _ (by omega : (0 : ℕ) < 3)]

theorem c9_mesh_invariants_witness :
    (MeshGenerator.new 0).generate (List.replicate 65536 (0 : ℚ)) 1 0 =
      .ok (mkMeshData (List.replicate 65536 (0 : ℚ)) 1 8) ∧
    (mkMeshData (List.replicate 65536 (0 : ℚ)) 1 8).normals.length =
      (mkMeshData (List.replicate 65536 (0 : ℚ)) 1 8).vertices.length := by
  have h := c9_mesh_invariants (MeshGenerator.new 0) (List.replicate 65536 (0 : ℚ))
    1 0 8 replicate_length_65536 rfl
  exact ⟨h.1, h.2.2.2⟩

/-- C10: `MeshGenerator::generate` is a pure function of
(elevations, tile_size, lod_level) alone: any two generators — in
particular generators built by `new` from different max_error values —
produce identical results on every input. -/
theorem c10_generate_deterministic (g1 g2 : MeshGenerator) (elevations : List ℚ)
    (tile_size : ℚ) (lod_level : ℕ) :
    g1.generate elevations tile_size lod_level =
      g2.generate elevations tile_size lod_level ∧
    (MeshGenerator.new g1.max_error).generate elevations tile_size lod_level =
      g1.generate elevations tile_size lod_level :=
  ⟨rfl, rfl⟩
